import Mathlib

/-!
Verification of the resolution and playback orchestration engine of
`dismusic-V2` (`src/dismusic/music.py`), as a shallow embedding in Lean.

Python dictionaries with a fixed set of relevant keys become structures whose
fields are `Option`-valued where the key may be absent or `None`; Python
truthiness of strings ("" and `None` are falsy) is made explicit through
`truthyStr`.  Machine-level details (HTTP, asyncio, discord transport) are
abstracted into explicit outcome parameters, while every piece of control flow
and data manipulation that the source performs on those outcomes is translated
directly from the code.
-/

namespace Dismusic

/-- Python truthiness of an optional string: `None` and the empty string are
falsy, every other string is truthy. -/
def truthyStr : Option String → Bool
  | some s => !s.toList.isEmpty
  | none => false

/-! ## yt-dlp candidate selection (`_choose_audio_url_from_info`)

A yt-dlp format dictionary, restricted to the keys the chooser reads:
`acodec`, `abr`, `tbr`, `url`.  All of them may be absent (or `None`). -/

/-- One element of a yt-dlp `formats` list; fields mirror the dictionary keys
read by `_choose_audio_url_from_info`. -/
structure Format where
  acodec : Option String
  abr : Option Nat
  tbr : Option Nat
  url : Option String
deriving DecidableEq

/-- A yt-dlp entry: the keys `url`, `is_live` and `formats` that the chooser
reads from a single video entry. -/
structure Entry where
  url : Option String
  is_live : Bool
  formats : Option (List Format)
deriving DecidableEq

/-- A yt-dlp extraction result: an optional truthy-checked `entries` list (for
search/playlist results) together with the entry-shaped fields of the result
itself, used when there is no usable `entries` list. -/
structure Info where
  entries : Option (List Entry)
  asEntry : Entry
deriving DecidableEq

/-- Sort key of a format: `(f.get("abr") or 0, f.get("tbr") or 0)`; a missing
(or `None`) bitrate counts as 0. -/
def fmtKey (f : Format) : Nat × Nat :=
  (f.abr.getD 0, f.tbr.getD 0)

/-- Lexicographic strict comparison of sort keys, exactly Python tuple `<`. -/
def keyLt (a b : Nat × Nat) : Bool :=
  decide (a.1 < b.1) || (decide (a.1 = b.1) && decide (a.2 < b.2))

/-- Stable descending insertion: `f` is placed before the first element whose
key is not strictly greater than `f`'s, so equal keys keep original order.
This realises Python's stable `sorted(..., key=..., reverse=True)`. -/
def insertDesc (f : Format) : List Format → List Format
  | [] => [f]
  | g :: gs => if keyLt (fmtKey f) (fmtKey g) then g :: insertDesc f gs else f :: g :: gs

/-- Stable descending sort by `fmtKey`, modelling
`sorted(audio_formats, key=lambda f: (f.get("abr") or 0, f.get("tbr") or 0), reverse=True)`. -/
def sortDesc : List Format → List Format
  | [] => []
  | f :: fs => insertDesc f (sortDesc fs)

/-- Step 1 of the chooser: `entry = info["entries"][0]` when the `entries` key
holds a truthy (non-empty) list, else the result itself is the entry. -/
def pickEntry (info : Info) : Entry :=
  match info.entries with
  | some (e :: _) => e
  | _ => info.asEntry

/-- Shallow embedding of `_choose_audio_url_from_info`.  `none` input models a
falsy `info`; the result pairs the chosen (possibly missing) stream URL with
the entry the metadata is taken from, or is `none` when nothing is playable. -/
def _choose_audio_url_from_info : Option Info → Option (Option String × Entry)
  | none => none
  | some info =>
    let entry := pickEntry info
    if truthyStr entry.url && !entry.is_live then
      some (entry.url, entry)
    else
      match (entry.formats.getD []).filter (fun f => !(decide (f.acodec = some "none"))) with
      | [] => none
      | f :: fs => some (((sortDesc (f :: fs)).headD f).url, entry)

/-! Specification-side rendering of the four-step selection rule.  Steps 1-3
read identically to the code; step 4 is written the way the claim words it:
"the format maximizing the `(average_bitrate, total_bitrate)` tuple, ties
broken by original list order", i.e. the first format whose key equals the
maximum key. -/

/-- Maximum of two keys; on ties the first argument wins. -/
def keyMax (a b : Nat × Nat) : Nat × Nat :=
  if keyLt a b then b else a

/-- Maximum key of a list of keys, with initial value `k`. -/
def maxKey : Nat × Nat → List (Nat × Nat) → Nat × Nat
  | k, [] => k
  | k, k1 :: ks => maxKey (keyMax k k1) ks

/-- The first format of `f :: fs` attaining the maximal `fmtKey`: the claim's
"format maximizing the tuple, ties broken by original list order". -/
def firstMaxFmt (f : Format) (fs : List Format) : Format :=
  ((f :: fs).find? (fun g => decide (fmtKey g = maxKey (fmtKey f) (fs.map fmtKey)))).getD f

/-- Candidate selection as worded by the specification's four-step rule. -/
def selectCandidateSpec : Option Info → Option (Option String × Entry)
  | none => none
  | some info =>
    let entry := pickEntry info
    if truthyStr entry.url && !entry.is_live then
      some (entry.url, entry)
    else
      match (entry.formats.getD []).filter (fun f => !(decide (f.acodec = some "none"))) with
      | [] => none
      | f :: fs => some ((firstMaxFmt f fs).url, entry)

/-! ### Key-order lemmas -/

lemma keyLt_iff (a b : Nat × Nat) :
    keyLt a b = true ↔ (a.1 < b.1 ∨ (a.1 = b.1 ∧ a.2 < b.2)) := by
  simp [keyLt]

lemma keyLt_false_iff (a b : Nat × Nat) :
    keyLt a b = false ↔ (b.1 < a.1 ∨ (b.1 = a.1 ∧ b.2 ≤ a.2)) := by
  rw [← Bool.not_eq_true, keyLt_iff]
  omega

lemma keyLt_irrefl (a : Nat × Nat) : keyLt a a = false := by
  rw [keyLt_false_iff]
  omega

lemma keyMax_assoc (a b c : Nat × Nat) :
    keyMax (keyMax a b) c = keyMax a (keyMax b c) := by
  obtain ⟨a1, a2⟩ := a
  obtain ⟨b1, b2⟩ := b
  obtain ⟨c1, c2⟩ := c
  simp only [keyMax]
  split_ifs <;>
    simp only [keyLt_iff] at * <;>
    first
      | rfl
      | (simp only [Prod.mk.injEq]; omega)

lemma maxKey_cons_out : ∀ (ks : List (Nat × Nat)) (a b : Nat × Nat),
    maxKey (keyMax a b) ks = keyMax a (maxKey b ks)
  | [], _, _ => rfl
  | k1 :: ks, a, b => by
    simp only [maxKey]
    rw [keyMax_assoc, maxKey_cons_out ks a (keyMax b k1)]

lemma maxKey_mem : ∀ (ks : List (Nat × Nat)) (k : Nat × Nat),
    maxKey k ks = k ∨ maxKey k ks ∈ ks
  | [], _ => Or.inl rfl
  | k1 :: ks, k => by
    simp only [maxKey]
    rcases maxKey_mem ks (keyMax k k1) with h | h
    · by_cases hlt : keyLt k k1 = true
      · right
        rw [h]
        simp [keyMax, hlt]
      · left
        rw [h]
        simp [keyMax, hlt]
    · right
      exact List.mem_cons_of_mem _ h

lemma insertDesc_cons_ex (f : Format) :
    ∀ l : List Format, ∃ b rest, insertDesc f l = b :: rest
  | [] => ⟨f, [], rfl⟩
  | g :: gs => by
    by_cases h : keyLt (fmtKey f) (fmtKey g) = true
    · exact ⟨g, insertDesc f gs, by simp [insertDesc, h]⟩
    · exact ⟨f, g :: gs, by simp [insertDesc, h]⟩

lemma find?_firstMaxFmt (g : Format) (t : List Format) :
    (g :: t).find? (fun y => decide (fmtKey y = maxKey (fmtKey g) (t.map fmtKey))) =
      some (firstMaxFmt g t) := by
  have hex : ∃ x ∈ g :: t,
      (fun y => decide (fmtKey y = maxKey (fmtKey g) (t.map fmtKey))) x = true := by
    rcases maxKey_mem (t.map fmtKey) (fmtKey g) with h | h
    · exact ⟨g, List.mem_cons_self g t, by simp [h]⟩
    · obtain ⟨x, hx, hkey⟩ := List.mem_map.mp h
      exact ⟨x, List.mem_cons_of_mem _ hx, by simp [hkey]⟩
  obtain ⟨a, ha⟩ := Option.isSome_iff_exists.mp (List.find?_isSome.mpr hex)
  rw [ha]
  unfold firstMaxFmt
  rw [ha]
  rfl

lemma fmtKey_firstMaxFmt (g : Format) (t : List Format) :
    fmtKey (firstMaxFmt g t) = maxKey (fmtKey g) (t.map fmtKey) := by
  have h := List.find?_some (find?_firstMaxFmt g t)
  simpa using h

/-- The head of the stable descending sort is the first format attaining the
maximal key: Python's `sorted(..., reverse=True)[0]` is the claim's
"max with ties broken by original list order". -/
lemma head_sortDesc : ∀ (fs : List Format) (f : Format),
    (sortDesc (f :: fs)).headD f = firstMaxFmt f fs
  | [], f => by
    simp [sortDesc, insertDesc, firstMaxFmt, maxKey, List.find?]
  | g :: t, f => by
    obtain ⟨b, rest, hb⟩ := insertDesc_cons_ex g (sortDesc t)
    have hsort : sortDesc (g :: t) = b :: rest := hb
    have hIH := head_sortDesc t g
    rw [hsort, List.headD_cons] at hIH
    have hkb : fmtKey b = maxKey (fmtKey g) (List.map fmtKey t) := by
      rw [hIH]; exact fmtKey_firstMaxFmt g t
    have hL : sortDesc (f :: g :: t) = insertDesc f (b :: rest) := by
      show insertDesc f (sortDesc (g :: t)) = _
      rw [hsort]
    have hM : maxKey (fmtKey f) (List.map fmtKey (g :: t)) =
        keyMax (fmtKey f) (maxKey (fmtKey g) (List.map fmtKey t)) := by
      simp only [List.map_cons, maxKey]
      exact maxKey_cons_out _ _ _
    by_cases hc : keyLt (fmtKey f) (maxKey (fmtKey g) (List.map fmtKey t)) = true
    · -- the key of f is strictly below the running max: the head is b
      have hMM : maxKey (fmtKey f) (List.map fmtKey (g :: t)) =
          maxKey (fmtKey g) (List.map fmtKey t) := by
        rw [hM]; simp [keyMax, hc]
      have hfind : List.find? (fun y => decide (fmtKey y =
          maxKey (fmtKey f) (List.map fmtKey (g :: t)))) (f :: g :: t) =
          List.find? (fun y => decide (fmtKey y =
            maxKey (fmtKey f) (List.map fmtKey (g :: t)))) (g :: t) := by
        apply List.find?_cons_of_neg
        simp only [decide_eq_true_eq, hMM]
        intro hEq
        rw [← hEq, keyLt_irrefl] at hc
        simp at hc
      rw [hL]
      simp only [insertDesc, hkb, hc, if_true, List.headD_cons]
      unfold firstMaxFmt
      rw [hfind]
      simp only [hMM]
      rw [find?_firstMaxFmt]
      rw [hIH]
      rfl
    · -- the key of f is at least the running max: the head is f itself
      have hc' : keyLt (fmtKey f) (maxKey (fmtKey g) (List.map fmtKey t)) = false := by
        revert hc
        cases keyLt (fmtKey f) (maxKey (fmtKey g) (List.map fmtKey t)) <;> simp
      have hMM : maxKey (fmtKey f) (List.map fmtKey (g :: t)) = fmtKey f := by
        rw [hM]; simp [keyMax, hc']
      have hfind : List.find? (fun y => decide (fmtKey y =
          maxKey (fmtKey f) (List.map fmtKey (g :: t)))) (f :: g :: t) = some f := by
        apply List.find?_cons_of_pos
        simp only [decide_eq_true_eq, hMM]
      rw [hL]
      simp only [insertDesc, hkb, hc', Bool.false_eq_true, if_false, List.headD_cons]
      unfold firstMaxFmt
      rw [hfind]
      rfl

/-- The source chooser coincides with the specification's four-step rule on
every input. -/
lemma choose_eq_spec (info : Option Info) :
    _choose_audio_url_from_info info = selectCandidateSpec info := by
  cases info with
  | none => rfl
  | some i =>
    simp only [_choose_audio_url_from_info, selectCandidateSpec]
    by_cases hc : (truthyStr (pickEntry i).url && !(pickEntry i).is_live) = true
    · simp [hc]
    · simp only [Bool.not_eq_true] at hc
      simp only [hc, Bool.false_eq_true, if_false]
      cases hl : ((pickEntry i).formats.getD []).filter
          (fun f => !(decide (f.acodec = some "none"))) with
      | nil => simp [hl]
      | cons f fs =>
        simp only [hl]
        rw [head_sortDesc]

/-- Entry of the claim's concrete example: no direct URL and the two audio
formats `(codec aac, abr 5, tbr 5)` and `(codec opus, abr 9, tbr 1)`. -/
def c1OpusEntry : Entry :=
  ⟨none, false,
    some [⟨some "aac", some 5, some 5, some "u_aac"⟩,
          ⟨some "opus", some 9, some 1, some "u_opus"⟩]⟩

/-- C1: the candidate-selection function implements exactly the four-step
rule — first nested entry when the entries list is non-empty; a truthy
non-live direct URL is selected with no further comparison; otherwise formats
are filtered to audio codec not "none" and selection fails when none remain;
otherwise the format maximizing the `(abr, tbr)` tuple, ties broken by
original list order, is selected.  In particular the opus format wins the
claim's example, and a missing `abr` or `tbr` is treated as 0. -/
theorem c1_candidate_selection_four_step_rule :
    (∀ info, _choose_audio_url_from_info info = selectCandidateSpec info)
    ∧ _choose_audio_url_from_info (some ⟨none, c1OpusEntry⟩) =
        some (some "u_opus", c1OpusEntry)
    ∧ fmtKey ⟨some "aac", none, none, none⟩ = (0, 0) :=
  ⟨choose_eq_spec, by decide, rfl⟩

/-! ## Session playback state machine (slash commands) -/

/-- Loop modes accepted by the player. -/
inductive LoopMode
  | NONE
  | CURRENT
  | PLAYLIST
deriving DecidableEq

/-- A queued track; opaque to the orchestrator beyond identity. -/
structure Track where
  id : Nat
deriving DecidableEq

/-- Per-session mutable player state touched by the slash commands. -/
structure PlayerState where
  channelId : Nat
  queue : List Track
  current : Option Track
  loop : LoopMode
  paused : Bool
  position : Int
deriving DecidableEq

/-- Shallow embedding of `_ensure_voice_for_user`: the check passes exactly
when the requesting actor is in some voice channel (`member.voice.channel`
truthy); the actor's channel id is never compared with the player's. -/
def ensure_voice_for_user (actorVoice : Option Nat) : Bool :=
  actorVoice.isSome

/-- Outcome of a player-mutating slash command: whether the mutating action
ran, and the player state afterwards. -/
structure CommandStep where
  performed : Bool
  state : PlayerState
deriving DecidableEq

/-- Shallow embedding of the `skip` slash command: once
`_ensure_voice_for_user` passes (actor in any voice channel) and a player is
connected, loop mode `CURRENT` is reset to `NONE` and the current track is
stopped (`player.stop()` ends it, which the player event loop answers by
advancing). -/
def skip (actorVoice : Option Nat) (st : PlayerState) : CommandStep :=
  if !(ensure_voice_for_user actorVoice) then ⟨false, st⟩
  else
    let st1 := if st.loop = LoopMode.CURRENT then { st with loop := LoopMode.NONE } else st
    ⟨true, { st1 with current := none }⟩

/-- Player state of the C2 failing input: player connected to voice channel 1,
loop mode `CURRENT`, a current track and a queued track. -/
def c2State : PlayerState :=
  ⟨1, [⟨2⟩], some ⟨1⟩, LoopMode.CURRENT, false, 0⟩

/-- C2 (evidence of the code bug): a `skip` issued by an actor in voice
channel 999, while the player is bound to channel 1, is *not* rejected —
`_ensure_voice_for_user` only demands membership in some voice channel — and
it mutates the session: the loop mode falls from `CURRENT` to `NONE` and the
current track is stopped.  The `MustBeSameChannel` error the module imports is
never raised; only the play path compares channel ids. -/
theorem c2_skip_accepted_from_wrong_channel :
    999 ≠ c2State.channelId
    ∧ skip (some 999) c2State =
        ⟨true, { c2State with loop := LoopMode.NONE, current := none }⟩
    ∧ (skip (some 999) c2State).state ≠ c2State := by
  decide

/-- Shallow embedding of the `seek` slash command body, reached while a track
is playing: `position = player.position + seconds`; past-the-end positions
are rejected before any mutation, negative ones are clamped to zero, and the
result is handed to the transport (`player.seek(position * 1000)`
milliseconds).  The pair returned is (seek performed?, resulting position in
seconds; the old position when rejected). -/
def seekCommand (p d L : Int) : Bool × Int :=
  let pos := p + d
  if pos > L then (false, p)
  else
    let pos := if pos < 0 then 0 else pos
    (true, pos)

/-- C8: while a track of length `L ≥ 0` plays at position `p`, a seek by `d`
is rejected with the position unchanged when `p + d > L`, proceeds clamped to
0 when `p + d < 0`, and otherwise moves the position to `p + d`. -/
theorem c8_seek_rejects_past_end_and_clamps_negative (p d L : Int) (hL : 0 ≤ L) :
    (p + d > L → seekCommand p d L = (false, p))
    ∧ (p + d < 0 → seekCommand p d L = (true, 0))
    ∧ (0 ≤ p + d → p + d ≤ L → seekCommand p d L = (true, p + d)) := by
  refine ⟨fun h => ?_, fun h => ?_, fun h1 h2 => ?_⟩
  · simp only [seekCommand]
    rw [if_pos h]
  · simp only [seekCommand]
    rw [if_neg (by omega), if_pos h]
  · simp only [seekCommand]
    rw [if_neg (by omega), if_neg (by omega)]

/-- Witness for C8, the specification's own example: on a track of length 120,
`Seek(+999999)` from position 0 is rejected, and `Seek(-999999)` from
position 5 clamps to 0. -/
theorem c8_seek_witness :
    seekCommand 0 999999 120 = (false, 0) ∧ seekCommand 5 (-999999) 120 = (true, 0) :=
  ⟨(c8_seek_rejects_past_end_and_clamps_negative 0 999999 120 (by decide)).1 (by decide),
   (c8_seek_rejects_past_end_and_clamps_negative 5 (-999999) 120 (by decide)).2.1 (by decide)⟩

/-! ## Backend node pool and provider search dispatch -/

/-- A Lavalink backend node: identity plus current load (player count). -/
structure Node where
  identifier : Nat
  players : Nat
deriving DecidableEq

/-- Ranking relation of `get_nodes`: ascending number of players. -/
def nodeLe (a b : Node) : Prop := a.players ≤ b.players

instance : DecidableRel nodeLe := fun a b => Nat.decLe a.players b.players

instance : IsTotal Node nodeLe := ⟨fun a b => Nat.le_total a.players b.players⟩

instance : IsTrans Node nodeLe := ⟨fun _ _ _ hab hbc => Nat.le_trans hab hbc⟩

/-- Shallow embedding of `get_nodes`: the pool's nodes sorted ascending by
player count with Python's stable sort. -/
def get_nodes (pool : List Node) : List Node :=
  pool.insertionSort nodeLe

/-- The value a successful provider search leaves in `tracks`: a plain list
of matches or a `YouTubePlaylist` container with its ordered tracks. -/
inductive TrackResult
  | list (ts : List Track)
  | playlist (ts : List Track)
deriving DecidableEq

/-- Behaviour of one backend node during the current dispatch: the 20-second
bounded wait times out, the provider raises a transient error
(`LavalinkException` / `LoadTrackError`), or the search returns a value. -/
inductive SearchOutcome
  | timeout
  | transientError
  | success (r : TrackResult)
deriving DecidableEq

/-- Bound (in seconds) of the per-node search wait, `async_timeout.timeout(20)`. -/
def search_timeout : Nat := 20

/-- Outcome of the node loop in `play_track_interaction`: the value of
`tracks` when the loop ends, the node-pool contents afterwards, the
identifiers for which a `dismusic_node_fail` event was dispatched (in order),
and the identifiers whose search attempt returned. -/
structure DispatchResult where
  result : Option TrackResult
  pool : List Node
  failedNodes : List Nat
  succeededNodes : List Nat
deriving DecidableEq

/-- The `for node in nodes` loop of `play_track_interaction`: a search that
returns causes `break` — whatever its value, an empty list included; a timeout
dispatches a node-failure event, pops the node from the pool and continues;
a transient provider error just continues. -/
def searchLoop (env : Nat → SearchOutcome) : List Node → List Node → DispatchResult
  | [], pool => ⟨none, pool, [], []⟩
  | n :: rest, pool =>
    match env n.identifier with
    | SearchOutcome.success r => ⟨some r, pool, [], [n.identifier]⟩
    | SearchOutcome.timeout =>
      let d := searchLoop env rest
        (pool.filter (fun m => !(decide (m.identifier = n.identifier))))
      ⟨d.result, d.pool, n.identifier :: d.failedNodes, d.succeededNodes⟩
    | SearchOutcome.transientError => searchLoop env rest pool

/-- One provider-search dispatch: the ranked node list is computed freshly
from the pool at call time (`nodes = self.get_nodes()`), then the loop runs. -/
def dispatchSearch (env : Nat → SearchOutcome) (pool : List Node) : DispatchResult :=
  searchLoop env (get_nodes pool) pool

/-- Outcome of the resolution part of `play_track_interaction`. -/
inductive PlayResult
  | playedViaYtdlp
  | notFound
  | queuedPlaylist (ts : List Track)
  | queuedSingle (t : Track)
deriving DecidableEq

/-- What `play_track_interaction` does after the node loop: falsy `tracks`
(loop never broke, or a successful empty list) reports "No song/track found";
a playlist container (truthy even when empty) enqueues all its tracks;
otherwise the first track of the list is enqueued. -/
def finishSearch (r : Option TrackResult) (queue : List Track) : PlayResult × List Track :=
  match r with
  | none => (PlayResult.notFound, queue)
  | some (TrackResult.list []) => (PlayResult.notFound, queue)
  | some (TrackResult.list (t :: _)) => (PlayResult.queuedSingle t, queue ++ [t])
  | some (TrackResult.playlist ts) => (PlayResult.queuedPlaylist ts, queue ++ ts)

/-! ### Dispatch-loop lemmas -/

lemma searchLoop_succ_len (env : Nat → SearchOutcome) :
    ∀ (l pool : List Node), (searchLoop env l pool).succeededNodes.length ≤ 1
  | [], _ => by simp [searchLoop]
  | n :: rest, pool => by
    cases henv : env n.identifier with
    | success r => simp [searchLoop, henv]
    | timeout =>
      simpa [searchLoop, henv] using searchLoop_succ_len env rest
        (pool.filter (fun m => !(decide (m.identifier = n.identifier))))
    | transientError =>
      simpa [searchLoop, henv] using searchLoop_succ_len env rest pool

lemma searchLoop_first_success (env : Nat → SearchOutcome) (r : TrackResult) :
    ∀ (l1 : List Node) (n : Node) (l2 pool : List Node),
      (∀ m ∈ l1, env m.identifier = SearchOutcome.timeout ∨
        env m.identifier = SearchOutcome.transientError) →
      env n.identifier = SearchOutcome.success r →
      (searchLoop env (l1 ++ n :: l2) pool).result = some r
      ∧ (searchLoop env (l1 ++ n :: l2) pool).succeededNodes = [n.identifier]
  | [], n, l2, pool, _, hsucc => by simp [searchLoop, hsucc]
  | m :: l1, n, l2, pool, hfail, hsucc => by
    have hm := hfail m (List.mem_cons_self m l1)
    have hrest : ∀ x ∈ l1, env x.identifier = SearchOutcome.timeout ∨
        env x.identifier = SearchOutcome.transientError :=
      fun x hx => hfail x (List.mem_cons_of_mem _ hx)
    rcases hm with hm | hm
    · have h := searchLoop_first_success env r l1 n l2
        (pool.filter (fun k => !(decide (k.identifier = m.identifier)))) hrest hsucc
      constructor
      · simpa [searchLoop, hm] using h.1
      · simpa [searchLoop, hm] using h.2
    · have h := searchLoop_first_success env r l1 n l2 pool hrest hsucc
      constructor
      · simpa [searchLoop, hm] using h.1
      · simpa [searchLoop, hm] using h.2

lemma ids_filter_subset (pool : List Node) (p : Node → Bool) (x : Nat) :
    x ∈ ((pool.filter p).map Node.identifier) → x ∈ (pool.map Node.identifier) := by
  intro hx
  obtain ⟨m, hm, hid⟩ := List.mem_map.mp hx
  exact List.mem_map.mpr ⟨m, List.mem_of_mem_filter hm, hid⟩

lemma searchLoop_pool_no_new (env : Nat → SearchOutcome) :
    ∀ (l pool : List Node) (x : Nat),
      x ∉ pool.map Node.identifier →
      x ∉ ((searchLoop env l pool).pool.map Node.identifier)
  | [], _, _, h => h
  | n :: rest, pool, x, h => by
    cases henv : env n.identifier with
    | success r => simpa [searchLoop, henv] using h
    | transientError =>
      simpa [searchLoop, henv] using searchLoop_pool_no_new env rest pool x h
    | timeout =>
      have h2 : x ∉ ((pool.filter
          (fun m => !(decide (m.identifier = n.identifier)))).map Node.identifier) :=
        fun hx => h (ids_filter_subset pool _ x hx)
      simpa [searchLoop, henv] using searchLoop_pool_no_new env rest _ x h2

lemma searchLoop_timeout_evicts (env : Nat → SearchOutcome) :
    ∀ (l1 : List Node) (n : Node) (l2 pool : List Node),
      (∀ m ∈ l1, env m.identifier = SearchOutcome.timeout ∨
        env m.identifier = SearchOutcome.transientError) →
      env n.identifier = SearchOutcome.timeout →
      n.identifier ∈ (searchLoop env (l1 ++ n :: l2) pool).failedNodes
      ∧ n.identifier ∉ ((searchLoop env (l1 ++ n :: l2) pool).pool.map Node.identifier)
  | [], n, l2, pool, _, htime => by
    constructor
    · simp [searchLoop, htime]
    · have hnot : n.identifier ∉ ((pool.filter
          (fun m => !(decide (m.identifier = n.identifier)))).map Node.identifier) := by
        intro hx
        obtain ⟨m, hm, hid⟩ := List.mem_map.mp hx
        have hmem := List.of_mem_filter hm
        simp [hid] at hmem
      simpa [searchLoop, htime] using searchLoop_pool_no_new env l2 _ n.identifier hnot
  | m :: l1, n, l2, pool, hfail, htime => by
    have hm := hfail m (List.mem_cons_self m l1)
    have hrest : ∀ x ∈ l1, env x.identifier = SearchOutcome.timeout ∨
        env x.identifier = SearchOutcome.transientError :=
      fun x hx => hfail x (List.mem_cons_of_mem _ hx)
    rcases hm with hm | hm
    · have h := searchLoop_timeout_evicts env l1 n l2
        (pool.filter (fun k => !(decide (k.identifier = m.identifier)))) hrest htime
      constructor
      · simp only [List.cons_append, searchLoop, hm]
        exact List.mem_cons_of_mem _ h.1
      · simpa [searchLoop, hm] using h.2
    · have h := searchLoop_timeout_evicts env l1 n l2 pool hrest htime
      constructor
      · simpa [searchLoop, hm] using h.1
      · simpa [searchLoop, hm] using h.2

lemma searchLoop_pool_keeps (e : Nat → SearchOutcome) :
    ∀ (l p : List Node) (x : Nat),
      e x ≠ SearchOutcome.timeout → x ∈ p.map Node.identifier →
      x ∈ ((searchLoop e l p).pool.map Node.identifier)
  | [], _, _, _, hx => hx
  | n :: rest, p, x, hne, hx => by
    cases henv : e n.identifier with
    | success r => simpa [searchLoop, henv] using hx
    | transientError =>
      simpa [searchLoop, henv] using searchLoop_pool_keeps e rest p x hne hx
    | timeout =>
      have hxid : x ≠ n.identifier := by
        intro hEq
        rw [hEq] at hne
        exact hne henv
      have hx2 : x ∈ ((p.filter
          (fun m => !(decide (m.identifier = n.identifier)))).map Node.identifier) := by
        obtain ⟨m, hm, hid⟩ := List.mem_map.mp hx
        refine List.mem_map.mpr ⟨m, List.mem_filter.mpr ⟨hm, ?_⟩, hid⟩
        have : m.identifier ≠ n.identifier := by rw [hid]; exact hxid
        simp [this]
      simpa [searchLoop, henv] using searchLoop_pool_keeps e rest _ x hne hx2

/-- The node pool left after a sequence of further dispatch calls. -/
def poolAfter (envs : List (Nat → SearchOutcome)) (pool : List Node) : List Node :=
  envs.foldl (fun p e => (dispatchSearch e p).pool) pool

lemma poolAfter_no_new : ∀ (envs : List (Nat → SearchOutcome)) (pool : List Node) (x : Nat),
    x ∉ pool.map Node.identifier → x ∉ ((poolAfter envs pool).map Node.identifier)
  | [], _, _, h => h
  | e :: envs, pool, x, h =>
    poolAfter_no_new envs ((dispatchSearch e pool).pool) x
      (searchLoop_pool_no_new e (get_nodes pool) pool x h)

lemma mem_ids_get_nodes (pool : List Node) (x : Nat) :
    x ∈ ((get_nodes pool).map Node.identifier) ↔ x ∈ (pool.map Node.identifier) :=
  ((List.perm_insertionSort nodeLe pool).map Node.identifier).mem_iff

/-- Search environment of the C3 counterexample: node 1 succeeds with an
empty list, node 2 would succeed with track 7. -/
def c3Env : Nat → SearchOutcome :=
  fun i => if i = 1 then SearchOutcome.success (TrackResult.list [])
           else SearchOutcome.success (TrackResult.list [⟨7⟩])

/-- Two-node pool of the C3 counterexample; node 1 ranks first. -/
def c3Pool : List Node := [⟨1, 0⟩, ⟨2, 1⟩]

/-- C3 counterexample: node 1's search succeeds with an empty result and the
loop `break`s there — the dispatch ends with the empty list (reported as
"nothing found") and node 2, which would have returned track 7, is never
consulted.  This contradicts the claim that an empty successful result does
not terminate the iteration. -/
theorem c3_counterexample_empty_success_terminates :
    (dispatchSearch c3Env c3Pool).result = some (TrackResult.list [])
    ∧ (dispatchSearch c3Env c3Pool).succeededNodes = [1]
    ∧ c3Env 2 = SearchOutcome.success (TrackResult.list [⟨7⟩])
    ∧ (finishSearch (dispatchSearch c3Env c3Pool).result []).1 = PlayResult.notFound
    ∧ (dispatchSearch c3Env c3Pool).result ≠ some (TrackResult.list [⟨7⟩]) := by
  decide

/-- C3 (amended): the dispatch returns the value of the first ranked node
whose search succeeds — empty or not — after skipping timed-out and
transiently failing nodes; at most one backend is queried successfully per
call; and the iteration order is the ranking computed from the pool at call
time (sorted ascending by player count, a permutation of the pool). -/
theorem c3_first_success_wins (env : Nat → SearchOutcome)
    (pool l1 l2 : List Node) (n : Node) (r : TrackResult)
    (hrank : get_nodes pool = l1 ++ n :: l2)
    (hfail : ∀ m ∈ l1, env m.identifier = SearchOutcome.timeout ∨
      env m.identifier = SearchOutcome.transientError)
    (hsucc : env n.identifier = SearchOutcome.success r) :
    (dispatchSearch env pool).result = some r
    ∧ (dispatchSearch env pool).succeededNodes = [n.identifier]
    ∧ (∀ (e : Nat → SearchOutcome) (l p : List Node),
        (searchLoop e l p).succeededNodes.length ≤ 1)
    ∧ List.Sorted nodeLe (get_nodes pool)
    ∧ (get_nodes pool).Perm pool := by
  have h := searchLoop_first_success env r l1 n l2 pool hfail hsucc
  refine ⟨?_, ?_, fun e l p => searchLoop_succ_len e l p,
    List.sorted_insertionSort nodeLe pool, List.perm_insertionSort nodeLe pool⟩
  · unfold dispatchSearch
    rw [hrank]
    exact h.1
  · unfold dispatchSearch
    rw [hrank]
    exact h.2

/-- Search environment of the C3 witness: node 1 fails transiently, node 2
succeeds with track 7. -/
def c3WEnv : Nat → SearchOutcome :=
  fun i => if i = 1 then SearchOutcome.transientError
           else SearchOutcome.success (TrackResult.list [⟨7⟩])

/-- Witness for C3 (amended) at a concrete pool and environment. -/
theorem c3_first_success_wins_witness :
    (dispatchSearch c3WEnv c3Pool).result = some (TrackResult.list [⟨7⟩])
    ∧ (dispatchSearch c3WEnv c3Pool).succeededNodes = [2] := by
  have h := c3_first_success_wins c3WEnv c3Pool [⟨1, 0⟩] [] ⟨2, 1⟩
    (TrackResult.list [⟨7⟩]) (by decide) (by decide) (by decide)
  exact ⟨h.1, h.2.1⟩

/-- C5: a node whose search attempt times out during a dispatch gets a
node-failure notification and is evicted: its identifier is absent from the
pool after the dispatch and from the ranked listing after any sequence of
further dispatches; a node whose attempt fails with a transient provider
error is not evicted and the loop simply moves on to the next node. -/
theorem c5_timeout_evicts_for_lifetime (env : Nat → SearchOutcome)
    (pool l1 l2 : List Node) (n : Node) (envs : List (Nat → SearchOutcome))
    (hrank : get_nodes pool = l1 ++ n :: l2)
    (hfail : ∀ m ∈ l1, env m.identifier = SearchOutcome.timeout ∨
      env m.identifier = SearchOutcome.transientError)
    (htime : env n.identifier = SearchOutcome.timeout) :
    n.identifier ∈ (dispatchSearch env pool).failedNodes
    ∧ n.identifier ∉
        ((get_nodes (poolAfter envs (dispatchSearch env pool).pool)).map Node.identifier)
    ∧ (∀ (e : Nat → SearchOutcome) (m : Node) (rest p : List Node),
        e m.identifier = SearchOutcome.transientError →
        searchLoop e (m :: rest) p = searchLoop e rest p
        ∧ (m.identifier ∈ p.map Node.identifier →
           m.identifier ∈ ((searchLoop e (m :: rest) p).pool.map Node.identifier))) := by
  have h := searchLoop_timeout_evicts env l1 n l2 pool hfail htime
  refine ⟨?_, ?_, ?_⟩
  · unfold dispatchSearch
    rw [hrank]
    exact h.1
  · have habs : n.identifier ∉ ((dispatchSearch env pool).pool.map Node.identifier) := by
      unfold dispatchSearch
      rw [hrank]
      exact h.2
    rw [mem_ids_get_nodes]
    exact poolAfter_no_new envs _ n.identifier habs
  · intro e m rest p hm
    constructor
    · simp [searchLoop, hm]
    · intro hmem
      refine searchLoop_pool_keeps e (m :: rest) p m.identifier ?_ hmem
      rw [hm]
      simp

/-- Search environment of the C5 witness: node 1 times out, node 2 succeeds. -/
def c5Env : Nat → SearchOutcome :=
  fun i => if i = 1 then SearchOutcome.timeout
           else SearchOutcome.success (TrackResult.list [⟨3⟩])

/-- Two-node pool of the C5 witness. -/
def c5Pool : List Node := [⟨1, 0⟩, ⟨2, 1⟩]

/-- Witness for C5 at a concrete pool, environment and one further dispatch. -/
theorem c5_timeout_evicts_witness :
    1 ∈ (dispatchSearch c5Env c5Pool).failedNodes
    ∧ 1 ∉ ((get_nodes (poolAfter [c5Env]
        (dispatchSearch c5Env c5Pool).pool)).map Node.identifier) := by
  have h := c5_timeout_evicts_for_lifetime c5Env c5Pool [] [⟨2, 1⟩] ⟨1, 0⟩ [c5Env]
    (by decide) (by decide) (by decide)
  exact ⟨h.1, h.2.1⟩

/-! ## Routing between the yt-dlp pipeline and the provider search -/

/-- Prefix test on character lists (Python `startswith`). -/
def startsL : List Char → List Char → Bool
  | [], _ => true
  | _ :: _, [] => false
  | a :: as, b :: bs => decide (a = b) && startsL as bs

/-- Contiguous-substring test on character lists (Python `pat in s`). -/
def containsSeq (pat : List Char) : List Char → Bool
  | [] => startsL pat []
  | b :: bs => startsL pat (b :: bs) || containsSeq pat bs

/-- Lower-casing of the query, `(query or "").lower()`. -/
def lowerQ (q : List Char) : List Char := q.map Char.toLower

/-- Shallow embedding of `_is_youtube_query`:
`"youtube.com" in q or "youtu.be" in q or q.startswith("ytsearch:") or
("youtube" in q and q.split())` on the lower-cased query; the final operand is
Python truthiness of `q.split()`, i.e. the query holds a non-whitespace
character. -/
def _is_youtube_query (query : List Char) : Bool :=
  containsSeq "youtube.com".toList (lowerQ query) ||
    containsSeq "youtu.be".toList (lowerQ query) ||
    startsL "ytsearch:".toList (lowerQ query) ||
    (containsSeq "youtube".toList (lowerQ query) &&
      (lowerQ query).any (fun c => !c.isWhitespace))

/-- Resolution of the provider key:
`provider or getattr(player, "track_provider", None)`. -/
def resolved_provider_key : Option String → Option String → Option String
  | some p, _ => some p
  | none, d => d

/-- The routing predicate of `play_track_interaction`: provider key `"yt"` or
`"ytmusic"`, or a YouTube-classified query, selects the yt-dlp pipeline. -/
def use_ytdlp_decision (pk : Option String) (q : List Char) : Bool :=
  decide (pk = some "yt") || decide (pk = some "ytmusic") || _is_youtube_query q

/-- Shallow embedding of `play_via_ytdlp`: `extract` is the outcome of
`_extract_with_ytdlp` (`Except.error` models a raised exception), `ss` the
transport attempt `play_direct_url_on_player` on the chosen URL.  A falsy
chooser result returns `False`; a chosen pair is a truthy tuple, so playback
is attempted even when its URL component is `None`. -/
def play_via_ytdlp (extract : Except Unit (Option Info)) (ss : Option String → Bool) : Bool :=
  match extract with
  | Except.error _ => false
  | Except.ok info =>
    match _choose_audio_url_from_info info with
    | none => false
    | some (url, _) => ss url

/-- The provider-search fallback path: one dispatch over the freshly ranked
nodes, then enqueueing from the result.  Returns (outcome, pool afterwards,
queue afterwards). -/
def searchFallback (env : Nat → SearchOutcome) (pool : List Node) (queue : List Track) :
    PlayResult × List Node × List Track :=
  let d := dispatchSearch env pool
  let fin := finishSearch d.result queue
  (fin.1, d.pool, fin.2)

/-- Resolution core of `play_track_interaction` after the connectivity and
same-channel checks: requests routed by `use_ytdlp_decision` go to the yt-dlp
pipeline first (`ytdlpOk` abstracts the boolean `play_via_ytdlp` returns and
the call ends there on success); otherwise — and after a pipeline failure —
the provider search over the node pool runs. -/
def play_resolution (pk : Option String) (q : List Char) (ytdlpOk : Bool)
    (env : Nat → SearchOutcome) (pool : List Node) (queue : List Track) :
    PlayResult × List Node × List Track :=
  if use_ytdlp_decision pk q && ytdlpOk then
    (PlayResult.playedViaYtdlp, pool, queue)
  else
    searchFallback env pool queue

/-- Environment of the C4 counterexample: every node answers with track 5. -/
def c4Env : Nat → SearchOutcome :=
  fun _ => SearchOutcome.success (TrackResult.list [⟨5⟩])

/-- One-node pool of the C4 counterexample. -/
def c4Pool : List Node := [⟨1, 0⟩]

/-- C4 counterexample: a request routed to the yt-dlp pipeline whose pipeline
run fails is *not* left as a plain failure — `play_track_interaction` falls
back to the provider search ("safety net") and here enqueues track 5,
contradicting "no further fallback or resolution path is attempted". -/
theorem c4_counterexample_fallback_after_extraction_failure :
    use_ytdlp_decision (some "yt") "some song".toList = true
    ∧ play_resolution (some "yt") "some song".toList false c4Env c4Pool [] =
        (PlayResult.queuedSingle ⟨5⟩, c4Pool, [⟨5⟩])
    ∧ PlayResult.queuedSingle ⟨5⟩ ≠ PlayResult.notFound := by
  decide

/-- C4 (amended): every failure of the extraction pipeline — extraction
raised, nothing playable selected, or stream start failed — is returned to the
caller as the plain boolean `false`, and the pipeline itself attempts nothing
further; the caller `play_track_interaction` then runs the provider search
over the node pool for that same request. -/
theorem c4_pipeline_failure_falls_back_to_search
    (ss : Option String → Bool) (info : Option Info) (pk : Option String)
    (q : List Char) (env : Nat → SearchOutcome) (pool : List Node) (queue : List Track) :
    play_via_ytdlp (Except.error ()) ss = false
    ∧ (_choose_audio_url_from_info info = none →
        play_via_ytdlp (Except.ok info) ss = false)
    ∧ (∀ u m, _choose_audio_url_from_info info = some (u, m) → ss u = false →
        play_via_ytdlp (Except.ok info) ss = false)
    ∧ (use_ytdlp_decision pk q = true →
        play_resolution pk q false env pool queue = searchFallback env pool queue) := by
  refine ⟨rfl, fun h => ?_, fun u m h hss => ?_, fun h => ?_⟩
  · simp [play_via_ytdlp, h]
  · simp [play_via_ytdlp, h, hss]
  · simp [play_resolution]

/-- Witness for C4 (amended) at concrete inputs. -/
theorem c4_pipeline_failure_witness :
    play_via_ytdlp (Except.error ()) (fun _ => false) = false
    ∧ play_via_ytdlp (Except.ok none) (fun _ => false) = false
    ∧ play_resolution (some "yt") "q".toList false c4Env c4Pool [] =
        searchFallback c4Env c4Pool [] := by
  have h := c4_pipeline_failure_falls_back_to_search (fun _ => false) none (some "yt")
    "q".toList c4Env c4Pool []
  exact ⟨h.1, h.2.1 rfl, h.2.2.2 (by decide)⟩

/-- C6: if the resolved provider kind is `yt` or `ytmusic`, or the query
contains the video-platform domain "youtube.com" or the short-link domain
"youtu.be" or carries the explicit "ytsearch:" prefix, the request is routed
directly to the yt-dlp extraction pipeline; the backend node pool is consulted
only for requests that are not routed there, or after the pipeline reports
failure. -/
theorem c6_youtube_requests_bypass_node_pool
    (providerArg sessionDefault : Option String) (q : List Char) (ok : Bool)
    (env : Nat → SearchOutcome) (pool : List Node) (queue : List Track) :
    ((resolved_provider_key providerArg sessionDefault = some "yt" ∨
      resolved_provider_key providerArg sessionDefault = some "ytmusic" ∨
      containsSeq "youtube.com".toList (lowerQ q) = true ∨
      containsSeq "youtu.be".toList (lowerQ q) = true ∨
      startsL "ytsearch:".toList (lowerQ q) = true) →
        use_ytdlp_decision (resolved_provider_key providerArg sessionDefault) q = true
        ∧ (ok = true →
            play_resolution (resolved_provider_key providerArg sessionDefault) q ok
              env pool queue = (PlayResult.playedViaYtdlp, pool, queue))
        ∧ (ok = false →
            play_resolution (resolved_provider_key providerArg sessionDefault) q ok
              env pool queue = searchFallback env pool queue))
    ∧ (use_ytdlp_decision (resolved_provider_key providerArg sessionDefault) q = false →
        play_resolution (resolved_provider_key providerArg sessionDefault) q ok
          env pool queue = searchFallback env pool queue) := by
  constructor
  · intro h
    have huse : use_ytdlp_decision (resolved_provider_key providerArg sessionDefault) q
        = true := by
      rcases h with h | h | h | h | h
      · simp [use_ytdlp_decision, h]
      · simp [use_ytdlp_decision, h]
      · simp only [use_ytdlp_decision, _is_youtube_query, h]
        simp
      · simp only [use_ytdlp_decision, _is_youtube_query, h]
        simp
      · simp only [use_ytdlp_decision, _is_youtube_query, h]
        simp
    refine ⟨huse, fun hok => ?_, fun hok => ?_⟩
    · simp [play_resolution, huse, hok]
    · simp [play_resolution, huse, hok]
  · intro huse
    simp [play_resolution, huse]

/-- Witness for C6 at a concrete request. -/
theorem c6_youtube_requests_witness :
    use_ytdlp_decision (resolved_provider_key (some "yt") none) "despacito".toList = true
    ∧ play_resolution (resolved_provider_key (some "yt") none) "despacito".toList true
        c4Env c4Pool [] = (PlayResult.playedViaYtdlp, c4Pool, []) := by
  have h := c6_youtube_requests_bypass_node_pool (some "yt") none "despacito".toList true
    c4Env c4Pool []
  have h1 := h.1 (Or.inl rfl)
  exact ⟨h1.1, h1.2.1 rfl⟩

/-! ## Credential cache and refresh (`_refresh_cookies`, `refreshcookies`) -/

/-- What the single HTTP GET of a refresh does: returns status 200 with a
body, returns another status, or raises (network error, timeout, ...). -/
inductive FetchResult
  | ok (text : String)
  | httpError (status : Nat)
  | exc (msg : String)
deriving DecidableEq

/-- Result of `_refresh_cookies`: the returned `(success, error-detail)` pair,
the cache slot afterwards, and whether an external fetch was attempted. -/
structure RefreshResult where
  success : Bool
  errorDetail : Option String
  cache : Option String
  externalCall : Bool
deriving DecidableEq

/-- Shallow embedding of `_refresh_cookies`: with a configured (truthy) raw
URL it always performs the fetch; HTTP 200 overwrites the cache and returns
`(True, None)`, any other status returns `(False, "HTTP <status>")`, and an
exception returns `(False, str(exc))` — the cache is untouched on failure. -/
def _refresh_cookies (cfg cache : Option String) (fetch : FetchResult) : RefreshResult :=
  if !(truthyStr cfg) then
    ⟨false, some "No cookie raw URL configured", cache, false⟩
  else
    match fetch with
    | FetchResult.ok text => ⟨true, none, some text, true⟩
    | FetchResult.httpError s => ⟨false, some ("HTTP " ++ toString s), cache, true⟩
    | FetchResult.exc m => ⟨false, some m, cache, true⟩

/-- User-facing outcome of the `refreshcookies` slash command. -/
inductive RefreshMsg
  | noUrlConfigured
  | alreadyCached
  | refreshed
  | failed (err : Option String)
deriving DecidableEq

/-- Shallow embedding of the `refreshcookies` slash command: no configured URL
is reported at once; a truthy cached snapshot together with `force=False`
short-circuits into the "already cached" notice without any external call;
otherwise `_refresh_cookies` runs.  Returns (message, cache afterwards,
external call attempted?). -/
def refreshcookies (cfg cache : Option String) (force : Bool) (fetch : FetchResult) :
    RefreshMsg × Option String × Bool :=
  if !(truthyStr cfg) then (RefreshMsg.noUrlConfigured, cache, false)
  else if truthyStr cache && !force then (RefreshMsg.alreadyCached, cache, false)
  else
    let r := _refresh_cookies cfg cache fetch
    ((if r.success then RefreshMsg.refreshed else RefreshMsg.failed r.errorDetail),
      r.cache, r.externalCall)

/-- C7: with a configured raw URL, a refresh with `force=False` while a
(truthy) snapshot is cached short-circuits as the no-op "already cached"
notice without an external call and without touching the cache; a refresh
with `force=True` always performs the external fetch, overwrites the cache
with the body on HTTP 200, and reports `"HTTP <status>"` or the exception
text as error detail on failure. -/
theorem c7_refresh_short_circuit_and_force
    (u : String) (cache : Option String) (force : Bool) (fetch : FetchResult)
    (hu : truthyStr (some u) = true) :
    (truthyStr cache = true → force = false →
      refreshcookies (some u) cache force fetch =
        (RefreshMsg.alreadyCached, cache, false))
    ∧ (force = true →
        (refreshcookies (some u) cache force fetch).2.2 = true
        ∧ (∀ text, fetch = FetchResult.ok text →
            refreshcookies (some u) cache force fetch =
              (RefreshMsg.refreshed, some text, true))
        ∧ (∀ s, fetch = FetchResult.httpError s →
            refreshcookies (some u) cache force fetch =
              (RefreshMsg.failed (some ("HTTP " ++ toString s)), cache, true))
        ∧ (∀ m, fetch = FetchResult.exc m →
            refreshcookies (some u) cache force fetch =
              (RefreshMsg.failed (some m), cache, true))) := by
  constructor
  · intro hc hf
    simp [refreshcookies, hu, hc, hf]
  · intro hf
    subst hf
    refine ⟨?_, fun text ht => ?_, fun s hs => ?_, fun m hm => ?_⟩
    · cases fetch <;> simp [refreshcookies, _refresh_cookies, hu]
    · subst ht
      simp [refreshcookies, _refresh_cookies, hu]
    · subst hs
      simp [refreshcookies, _refresh_cookies, hu]
    · subst hm
      simp [refreshcookies, _refresh_cookies, hu]

/-- Witness for C7: cached snapshot short-circuit, and a forced refresh that
fails with HTTP 500. -/
theorem c7_refresh_witness :
    refreshcookies (some "https://gist.example/raw") (some "cookietext") false
        (FetchResult.httpError 500) =
      (RefreshMsg.alreadyCached, some "cookietext", false)
    ∧ refreshcookies (some "https://gist.example/raw") (some "cookietext") true
        (FetchResult.httpError 500) =
      (RefreshMsg.failed (some ("HTTP " ++ toString 500)), some "cookietext", true) := by
  have h1 := c7_refresh_short_circuit_and_force "https://gist.example/raw"
    (some "cookietext") false (FetchResult.httpError 500) (by decide)
  have h2 := c7_refresh_short_circuit_and_force "https://gist.example/raw"
    (some "cookietext") true (FetchResult.httpError 500) (by decide)
  exact ⟨h1.1 (by decide) rfl, (h2.2 rfl).2.2.1 500 rfl⟩

/-! ## Temporary credential file of `_extract_with_ytdlp` -/

/-- Behaviour of the blocking `_ydl_extract_sync` call for one request:
either it returns an (optional) info structure or it raises. -/
inductive ExtractOutcome
  | info (i : Option Info)
  | raises
deriving DecidableEq

/-- Observable trace of one `_extract_with_ytdlp` call: whether a temporary
credential file was created, whether its deletion was attempted, whether the
file still exists after the call, and the call's result (`Except.error` for a
propagated extraction exception). -/
structure ExtractTrace where
  fileCreated : Bool
  unlinkAttempted : Bool
  fileRemains : Bool
  result : Except Unit (Option Info)

/-- Shallow embedding of `_extract_with_ytdlp`: truthy credential text is
written to a fresh temporary file before extraction; the `finally` block
always attempts `os.unlink` on that file — swallowing any deletion error —
whether the extraction returned or raised (`unlinkOk` abstracts whether the
deletion itself succeeds). -/
def _extract_with_ytdlp (cookiesText : Option String) (outcome : ExtractOutcome)
    (unlinkOk : Bool) : ExtractTrace :=
  let created := truthyStr cookiesText
  let result : Except Unit (Option Info) :=
    match outcome with
    | ExtractOutcome.info i => Except.ok i
    | ExtractOutcome.raises => Except.error ()
  if created then
    ⟨true, true, !unlinkOk, result⟩
  else
    ⟨false, false, false, result⟩

/-- C9: when credential text is given (truthy), the temporary file is created
and its deletion is attempted unconditionally — after a successful deletion it
no longer exists whether the extraction returned or raised; a deletion failure
is swallowed and never changes the call's result; and with no credential text
no temporary file is created at all. -/
theorem c9_temp_credential_file_lifecycle
    (ct : Option String) (outcome : ExtractOutcome) (unlinkOk : Bool) :
    (truthyStr ct = true →
      (_extract_with_ytdlp ct outcome unlinkOk).fileCreated = true
      ∧ (_extract_with_ytdlp ct outcome unlinkOk).unlinkAttempted = true
      ∧ (unlinkOk = true → (_extract_with_ytdlp ct outcome unlinkOk).fileRemains = false))
    ∧ (truthyStr ct = false →
        (_extract_with_ytdlp ct outcome unlinkOk).fileCreated = false
        ∧ (_extract_with_ytdlp ct outcome unlinkOk).unlinkAttempted = false)
    ∧ (_extract_with_ytdlp ct outcome true).result =
        (_extract_with_ytdlp ct outcome false).result
    ∧ (outcome = ExtractOutcome.raises →
        (_extract_with_ytdlp ct outcome unlinkOk).result = Except.error ())
    ∧ (∀ i, outcome = ExtractOutcome.info i →
        (_extract_with_ytdlp ct outcome unlinkOk).result = Except.ok i) := by
  refine ⟨fun h => ?_, fun h => ?_, ?_, fun h => ?_, fun i h => ?_⟩
  · refine ⟨?_, ?_, fun hok => ?_⟩
    · simp [_extract_with_ytdlp, h]
    · simp [_extract_with_ytdlp, h]
    · simp [_extract_with_ytdlp, h, hok]
  · constructor <;> simp [_extract_with_ytdlp, h]
  · cases hct : truthyStr ct <;> simp [_extract_with_ytdlp, hct]
  · subst h
    cases hct : truthyStr ct <;> simp [_extract_with_ytdlp, hct]
  · subst h
    cases hct : truthyStr ct <;> simp [_extract_with_ytdlp, hct]

/-- Witness for C9: a call with credential text whose extraction raises still
attempts (and here completes) the deletion, and a call without credential
text creates nothing. -/
theorem c9_temp_credential_file_witness :
    (_extract_with_ytdlp (some "cookie") ExtractOutcome.raises true).fileCreated = true
    ∧ (_extract_with_ytdlp (some "cookie") ExtractOutcome.raises true).unlinkAttempted = true
    ∧ (_extract_with_ytdlp (some "cookie") ExtractOutcome.raises true).fileRemains = false
    ∧ (_extract_with_ytdlp none ExtractOutcome.raises true).fileCreated = false := by
  have h1 := c9_temp_credential_file_lifecycle (some "cookie") ExtractOutcome.raises true
  have h2 := c9_temp_credential_file_lifecycle none ExtractOutcome.raises true
  have ha := h1.1 (by decide)
  exact ⟨ha.1, ha.2.1, ha.2.2 rfl, (h2.2.1 (by decide)).1⟩

/-! ## A selected candidate may carry no stream URL (C10) -/

/-- Format of the C10 input: a playable audio codec but no `url` key. -/
def c10Format : Format := ⟨some "aac", some 5, some 5, none⟩

/-- Entry of the C10 input: no direct URL, one url-less audio format. -/
def c10Entry : Entry := ⟨none, false, some [c10Format]⟩

/-- Extraction result of the C10 input. -/
def c10Info : Info := ⟨none, c10Entry⟩

/-- C10: the chooser happily returns a candidate whose URL component is `None`
when the best-ranked audio format lacks a `url` key — the returned pair is a
truthy tuple, so `play_via_ytdlp` does not take its failure branch and hands
the `None` URL straight to the playback attempt. -/
theorem c10_selected_candidate_may_lack_url :
    _choose_audio_url_from_info (some c10Info) = some (none, c10Entry)
    ∧ (∀ ss : Option String → Bool,
        play_via_ytdlp (Except.ok (some c10Info)) ss = ss none) := by
  constructor
  · decide
  · intro ss
    have h : _choose_audio_url_from_info (some c10Info) = some (none, c10Entry) := by decide
    simp [play_via_ytdlp, h]

end Dismusic
